import Mathlib

/-!
A verification development for the micro-batching engine of the
`code-challenge` repository.  The definitions below are a shallow
embedding of the TypeScript sources:

* the asynchronous-result variant of `batcher.ts` (the draft the spec
  adopts as the contract): `newBatcher`, `addJob`, `processBatch`,
  `shutdown`, `newBatchProcessor` and the `batchJob` wrapper;
* the job-status variant (`src/batcher.ts`): `newJobProcessor`,
  `newBatchProcessor` over `Job` records with a tracked `result.status`.

Machine numbers that may be fractional (the construction parameters)
are modelled as rationals; queue lengths and counters as naturals.
Promise outcomes are modelled as `Except` / explicit settlement values,
and the timer as an explicit step function on the batcher state, plus a
timing model of `setInterval` for the concurrency claim.
-/

/-- `JobStatus` enum of the source (`PENDING | IN_PROGRESS | COMPLETE | FAILED`). -/
inductive JobStatus where
  | Pending
  | InProgress
  | Complete
  | Failed
deriving DecidableEq, Repr

/-- `BatcherErrors` enum of the source
(`BATCHER_SHUTTING_DOWN | BATCHER_QUEUE_FULL`). -/
inductive BatcherErrors where
  | ShuttingDown
  | QueueFull
deriving DecidableEq, Repr

/-- State of a batcher from the asynchronous-result variant
(`part_000`, first document): the fields of the `Batcher` record plus
the observable timer/signal state.  `shutdownResolver` records whether
a resolver has been stored (source line 119), `shutdownResolved`
whether it has been called (source line 104), `timerActive` whether
`clearInterval` has not yet run (source lines 103 and 134). -/
structure BatchState (J : Type) where
  batchSize : Nat
  maxBatches : Nat
  isShutdown : Bool
  shutdownResolver : Bool
  shutdownResolved : Bool
  timerActive : Bool
  queue : List J
deriving DecidableEq, Repr

/-- `addJob` of the asynchronous-result variant (source lines 64-86).
Rejections are delivered by rejecting the returned promise; we return
the error with which it is rejected, `none` meaning the job was
enqueued (the promise stays pending).  The enqueued element stands for
the `batchJob` wrapper pushed at source line 81. -/
def addJob {J : Type} (s : BatchState J) (j : J) : BatchState J × Option BatcherErrors :=
  if s.isShutdown then
    (s, some .ShuttingDown)
  else if s.maxBatches < 1 ∨ s.queue.length < s.maxBatches * s.batchSize then
    ({ s with queue := s.queue ++ [j] }, none)
  else
    (s, some .QueueFull)

/-- `processBatch` of the asynchronous-result variant (source lines
92-110).  Returns the post-tick state together with the batch handed to
the batch processor.  `queue.splice(0, batchSize)` removes the first
`batchSize` elements (fewer when the queue is shorter), i.e. `take`,
leaving `drop`.  After the batch settles, the shutdown check at source
lines 101-106 clears the interval and calls the stored resolver when
the batcher is shut down and the queue is empty; the idle branch
(source lines 107-109) only logs. -/
def processBatch {J : Type} (s : BatchState J) : BatchState J × List J :=
  if s.queue.length ≠ 0 then
    if s.isShutdown ∧ (s.queue.drop s.batchSize).length = 0 ∧ s.shutdownResolver then
      ({ s with queue := s.queue.drop s.batchSize,
                timerActive := false, shutdownResolved := true },
        s.queue.take s.batchSize)
    else
      ({ s with queue := s.queue.drop s.batchSize }, s.queue.take s.batchSize)
  else
    (s, [])

/-- `shutdown` of the asynchronous-result variant (source lines
113-122).  Returns the new state, the value the call returns (`some ()`
for the freshly created promise on the first call, `none` for the
implicit `undefined` of the guarded second call), and the log notices
emitted by the call. -/
def shutdown {J : Type} (s : BatchState J) :
    BatchState J × Option Unit × List String :=
  if s.isShutdown then
    (s, none, [])
  else
    ({ s with isShutdown := true, shutdownResolver := true },
      some (), ["Shutting down batch processor..."])

/-- One firing of the drain timer: `setInterval`'s callback runs
`processBatch` only while the interval has not been cleared. -/
def tickStep {J : Type} (s : BatchState J) : BatchState J :=
  if s.timerActive then (processBatch s).1 else s

/-- `n` successive firings of the drain timer, earliest first. -/
def ticksN {J : Type} : Nat → BatchState J → BatchState J
  | 0, s => s
  | n + 1, s => ticksN n (tickStep s)

/-- The concatenation, earliest first, of the batches handed to the
batch processor over `n` successive timer firings. -/
def ticksTrace {J : Type} : Nat → BatchState J → List J
  | 0, _ => []
  | n + 1, s =>
      (if s.timerActive then (processBatch s).2 else []) ++
        ticksTrace n (tickStep s)

/-- Ceiling division on naturals, `⌈n / b⌉`. -/
def ceilDiv (n b : Nat) : Nat := (n + b - 1) / b

/-- What `newBatcher` stores and reports at construction time, before
the first timer firing (source lines 124-137): the validated fields of
the `Batcher` record.  The timer is started (`setInterval`, line 134)
only after the record is built, so `timerStarted = true` on every
successfully constructed batcher, and no timer exists when
construction throws. -/
structure BatcherInit where
  batchSize : ℚ
  maxBatches : ℤ
  isShutdown : Bool
  timerStarted : Bool
deriving DecidableEq, Repr

/-- `newBatcher` construction (source lines 54-61 and 124-137): number
parameters are JS numbers, modelled as rationals.  Throwing is
modelled by `Except.error` with the thrown message; on success the
stored `maxBatches` is `maxBatches < 1 ? 0 : Math.floor(maxBatches)`
(source line 126). -/
def newBatcher (batchSize frequency maxBatches : ℚ) : Except String BatcherInit :=
  if frequency < 1 then
    .error "frequency cannot be less than 1ms"
  else if batchSize < 1 then
    .error "batch size cannot be less than 1"
  else
    .ok { batchSize := batchSize
          maxBatches := if maxBatches < 1 then 0 else ⌊maxBatches⌋
          isShutdown := false
          timerStarted := true }

/-- Settlement of a JS promise: `fulfilled` with a value or `rejected`
with a reason. -/
inductive Settled (ε α : Type) where
  | fulfilled (v : α)
  | rejected (e : ε)
deriving DecidableEq, Repr

/-- The `batchJob` wrapper built by `addJob` in the
asynchronous-result variant (source lines 72-79).  The caller's job is
an opaque computation that either produces a value or throws/rejects,
modelled as `Except ε α`.  Running the wrapper settles two promises:
the wrapper's own promise (first component: the `async` body runs
`try { resolve(await job()) } catch (err) { reject(err) }` and then
`return 1`, so any failure of `job` is caught and the body returns
normally) and the `JobResult` promise that `addJob` returned (second
component: `resolve`d with the job's value or `reject`ed with the
caught reason). -/
def batchJobRun {ε α : Type} (job : Except ε α) : Settled ε Nat × Settled ε α :=
  match job with
  | .ok v => (.fulfilled 1, .fulfilled v)
  | .error e => (.fulfilled 1, .rejected e)

/-- `newBatchProcessor` of the asynchronous-result variant (source
line 144): `({ batch }) => Promise.allSettled(batch.map(job => job()))`.
The promises observed by `Promise.allSettled` are the wrapper promises
of the jobs in the batch. -/
def newBatchProcessor {ε α : Type} (batch : List (Except ε α)) : List (Settled ε Nat) :=
  batch.map (fun job => (batchJobRun job).1)

/-- A value thrown by a JS job callback: either an `Error` instance
(carrying its message) or some non-`Error` value. -/
inductive JsThrown where
  | jsError (msg : String)
  | jsOther
deriving DecidableEq, Repr

/-- The `result` record of a `Job` in the job-status variant
(`src/batcher.ts` lines 7-11): a status plus optional message and
captured error. -/
structure JobResultRec where
  status : JobStatus
  message : Option String
  error : Option String
deriving DecidableEq, Repr

/-- The `result` a job carries when `addJob` creates it
(`src/batcher.ts` lines 79-85): status `Pending`, no message, no
error. -/
def pendingResult : JobResultRec :=
  { status := .Pending, message := none, error := none }

/-- The job processor of the job-status variant (`src/batcher.ts`
lines 163-179), applied to a job whose callback outcome is `cb`: sets
`status := InProgress`, awaits the callback inside `try`, then records
`Complete` with its message, or on a caught failure `Failed` with the
degraded message, upgraded to the specific message and captured error
when the thrown value is an `Error` instance.  Returns the final
`result` record of the job. -/
def newJobProcessor {α : Type} (cb : Except JsThrown α) : JobResultRec :=
  match cb with
  | .ok _ =>
      { status := .Complete
        message := some "Job completed without errors"
        error := none }
  | .error .jsOther =>
      { status := .Failed
        message := some "Job returned an error. Error type unknown"
        error := none }
  | .error (.jsError m) =>
      { status := .Failed
        message := some "Job returned an error"
        error := some m }

/-- The successive values taken by `job.result.status` while the job
processor runs (`src/batcher.ts` lines 164-177): `InProgress` is
written immediately before the callback executes, and the terminal
status immediately after it settles. -/
def jobStatusWrites {α : Type} (cb : Except JsThrown α) : List JobStatus :=
  [.InProgress, (newJobProcessor cb).status]

/-- The full lifecycle of a job's `status`: created `Pending` by
`addJob` (`src/batcher.ts` line 83), then the writes performed by the
job processor once the job is drained. -/
def jobLifecycleTrace {α : Type} (cb : Except JsThrown α) : List JobStatus :=
  .Pending :: jobStatusWrites cb

/-- The transitions the spec's job state machine allows. -/
def statusStep : JobStatus → JobStatus → Bool
  | .Pending, .InProgress => true
  | .InProgress, .Complete => true
  | .InProgress, .Failed => true
  | _, _ => false

/-- Terminal job statuses. -/
def isTerminal : JobStatus → Bool
  | .Complete => true
  | .Failed => true
  | _ => false

/-- The batch processor of the job-status variant (`src/batcher.ts`
lines 143-160): shifts up to `size` jobs off the head of the queue,
runs the job processor on each, and `Promise.allSettled`s the results.
Returns the final `result` records of the drained jobs together with
the remaining queue.  A job here is identified with its callback
outcome. -/
def processBatchJobs {α : Type} (queue : List (Except JsThrown α)) (size : Nat) :
    List JobResultRec × List (Except JsThrown α) :=
  ((queue.take size).map newJobProcessor, queue.drop size)

/-- `setInterval` timing (source lines 134-136): the `k`-th firing of
the interval callback happens at time `(k+1) * frequency`.  The
callback `() => { processBatch(batchProcessor) }` invokes the async
`processBatch` without awaiting it, so the interval keeps firing on
this fixed cadence whatever the batch does. -/
def tickFireTime (frequency k : Nat) : Nat := (k + 1) * frequency

/-- The time at which the `k`-th tick's batch execution settles, when
the batch handed to the processor at that tick takes `dur k` time
units (job callbacks may be asynchronous and long-running): the tick
is outstanding from its firing until this moment. -/
def tickFinishTime (frequency : Nat) (dur : Nat → Nat) (k : Nat) : Nat :=
  tickFireTime frequency k + dur k

/-- Two drain ticks of the same batcher overlap: some tick is still
outstanding when the timer fires the next one. -/
def ticksOverlap (frequency : Nat) (dur : Nat → Nat) : Prop :=
  ∃ k, tickFireTime frequency (k + 1) < tickFinishTime frequency dur k

/-! ## Helper lemmas -/

theorem processBatch_take_drop {J : Type} (s : BatchState J) :
    (processBatch s).2 = s.queue.take s.batchSize
    ∧ (processBatch s).1.queue = s.queue.drop s.batchSize := by
  unfold processBatch
  split
  · split <;> simp
  · rename_i h
    rw [not_not] at h
    have hq : s.queue = [] := List.length_eq_zero.mp h
    simp [hq]

theorem processBatch_preserves {J : Type} (s : BatchState J) :
    (processBatch s).1.batchSize = s.batchSize
    ∧ (processBatch s).1.maxBatches = s.maxBatches
    ∧ (processBatch s).1.isShutdown = s.isShutdown
    ∧ (processBatch s).1.shutdownResolver = s.shutdownResolver := by
  unfold processBatch
  split
  · split <;> simp
  · simp

theorem tickStep_queue {J : Type} (s : BatchState J) :
    (if s.timerActive then (processBatch s).2 else []) ++ (tickStep s).queue = s.queue := by
  unfold tickStep
  by_cases h : s.timerActive
  · simp only [h, if_true]
    rw [(processBatch_take_drop s).1, (processBatch_take_drop s).2]
    exact List.take_append_drop _ _
  · simp [h]

theorem ticksTrace_append {J : Type} :
    ∀ (n : Nat) (s : BatchState J), ticksTrace n s ++ (ticksN n s).queue = s.queue := by
  intro n
  induction n with
  | zero => intro s; rfl
  | succ n ih =>
      intro s
      simp only [ticksTrace, ticksN, List.append_assoc, ih (tickStep s)]
      exact tickStep_queue s

theorem ticksN_add {J : Type} :
    ∀ (a b : Nat) (s : BatchState J), ticksN (a + b) s = ticksN b (ticksN a s) := by
  intro a
  induction a with
  | zero => intro b s; rw [Nat.zero_add]; rfl
  | succ a ih =>
      intro b s
      have h : a + 1 + b = (a + b) + 1 := by omega
      rw [h]
      show ticksN (a + b) (tickStep s) = ticksN b (ticksN a (tickStep s))
      exact ih b (tickStep s)

theorem ticksN_fixed {J : Type} (s : BatchState J) (h : tickStep s = s) :
    ∀ n, ticksN n s = s := by
  intro n
  induction n with
  | zero => rfl
  | succ n ih =>
      show ticksN n (tickStep s) = s
      rw [h, ih]

theorem tickStep_inactive {J : Type} (s : BatchState J) (h : s.timerActive = false) :
    tickStep s = s := by
  simp [tickStep, h]

theorem tick_drain_final {J : Type} (s : BatchState J)
    (hsd : s.isShutdown = true) (hres : s.shutdownResolver = true)
    (hta : s.timerActive = true)
    (hne : s.queue.length ≠ 0) (hle : s.queue.length ≤ s.batchSize) :
    tickStep s = { s with queue := [], timerActive := false, shutdownResolved := true } := by
  have hdrop : s.queue.drop s.batchSize = [] := by
    apply List.eq_nil_of_length_eq_zero
    simp [List.length_drop]
    omega
  simp [tickStep, hta, processBatch, hne, hsd, hres, hdrop]

theorem tick_drain_more {J : Type} (s : BatchState J)
    (hta : s.timerActive = true) (hgt : s.batchSize < s.queue.length) :
    tickStep s = { s with queue := s.queue.drop s.batchSize } := by
  have hne : s.queue.length ≠ 0 := by omega
  have hdrop : s.queue.length - s.batchSize ≠ 0 := by omega
  simp [tickStep, hta, processBatch, hne, hdrop]

theorem ceilDiv_of_le {N b : Nat} (hN : 1 ≤ N) (hNb : N ≤ b) : ceilDiv N b = 1 := by
  unfold ceilDiv
  apply Nat.div_eq_of_lt_le <;> omega

theorem ceilDiv_sub {N b : Nat} (hb : 1 ≤ b) (hNb : b < N) :
    ceilDiv N b = ceilDiv (N - b) b + 1 := by
  unfold ceilDiv
  have h1 : N + b - 1 = (N - b + b - 1) + b := by omega
  rw [h1, Nat.add_div_right _ (by omega)]

theorem drain_loop {J : Type} (b : Nat) (hb : 1 ≤ b) :
    ∀ N, ∀ s : BatchState J,
      s.batchSize = b → s.isShutdown = true → s.shutdownResolver = true →
      s.shutdownResolved = false → s.timerActive = true →
      s.queue.length = N → 1 ≤ N →
      (∀ k, k < ceilDiv N b →
        (ticksN k s).timerActive = true ∧ (ticksN k s).shutdownResolved = false
          ∧ (ticksN k s).queue ≠ [])
      ∧ (ticksN (ceilDiv N b) s).queue = []
      ∧ (ticksN (ceilDiv N b) s).timerActive = false
      ∧ (ticksN (ceilDiv N b) s).shutdownResolved = true
      ∧ ∀ m, ceilDiv N b ≤ m → ticksN m s = ticksN (ceilDiv N b) s := by
  intro N
  induction N using Nat.strong_induction_on with
  | _ N ih =>
    intro s hbs hsd hres hrv hta hlen hN
    have hne : s.queue ≠ [] := by
      intro h
      rw [h] at hlen
      simp at hlen
      omega
    by_cases hNb : N ≤ b
    · have hc : ceilDiv N b = 1 := ceilDiv_of_le hN hNb
      have hfin : tickStep s =
          { s with queue := [], timerActive := false, shutdownResolved := true } :=
        tick_drain_final s hsd hres hta (by omega) (by omega)
      have h1 : ticksN 1 s =
          { s with queue := [], timerActive := false, shutdownResolved := true } := by
        show tickStep s = _
        exact hfin
      refine ⟨?_, ?_, ?_, ?_, ?_⟩
      · intro k hk
        rw [hc] at hk
        have hk0 : k = 0 := by omega
        subst hk0
        exact ⟨hta, hrv, hne⟩
      · rw [hc, h1]
      · rw [hc, h1]
      · rw [hc, h1]
      · intro m hm
        rw [hc] at hm ⊢
        obtain ⟨k, rfl⟩ := Nat.exists_eq_add_of_le hm
        rw [ticksN_add 1 k s, h1]
        exact ticksN_fixed _ (tickStep_inactive _ rfl) k
    · push_neg at hNb
      have hstep : tickStep s = { s with queue := s.queue.drop s.batchSize } :=
        tick_drain_more s hta (by omega)
      have hlen2 : (tickStep s).queue.length = N - b := by
        rw [hstep]
        show (s.queue.drop s.batchSize).length = N - b
        rw [List.length_drop, hbs, hlen]
      have key := ih (N - b) (by omega) (tickStep s)
        (by rw [hstep]; exact hbs) (by rw [hstep]; exact hsd)
        (by rw [hstep]; exact hres) (by rw [hstep]; exact hrv)
        (by rw [hstep]; exact hta) hlen2 (by omega)
      obtain ⟨ihA, ihB, ihC, ihD, ihE⟩ := key
      have hc : ceilDiv N b = ceilDiv (N - b) b + 1 := ceilDiv_sub hb hNb
      refine ⟨?_, ?_, ?_, ?_, ?_⟩
      · intro k hk
        rw [hc] at hk
        cases k with
        | zero => exact ⟨hta, hrv, hne⟩
        | succ k =>
            show (ticksN k (tickStep s)).timerActive = true
              ∧ (ticksN k (tickStep s)).shutdownResolved = false
              ∧ (ticksN k (tickStep s)).queue ≠ []
            exact ihA k (by omega)
      · rw [hc]
        exact ihB
      · rw [hc]
        exact ihC
      · rw [hc]
        exact ihD
      · intro m hm
        rw [hc] at hm ⊢
        obtain ⟨k, rfl⟩ := Nat.exists_eq_add_of_le hm
        have e1 : ceilDiv (N - b) b + 1 + k = (ceilDiv (N - b) b + k) + 1 := by omega
        rw [e1]
        show ticksN (ceilDiv (N - b) b + k) (tickStep s)
          = ticksN (ceilDiv (N - b) b + 1) s
        rw [ihE _ (by omega)]
        rfl

/-! ## Claim theorems -/

/-- C1 (amended): if `Shutdown()` is called while `N ≥ 1` jobs are
queued and no further submissions occur, then with `batchSize = b`
exactly `ceil(N/b)` subsequent drain ticks drain the queue: before the
last of them the timer is still active and the signal unfulfilled and
the queue non-empty, after it the queue is empty, the drain timer is
permanently stopped and the shutdown completion signal is fulfilled,
and every later firing leaves the state unchanged (so the signal is
fulfilled exactly once).  (The original claim's `N = 0` case is false
on the code: see the counterexample theorem.) -/
theorem shutdown_drains_in_ceil_ticks {J : Type} (s : BatchState J) (N : Nat)
    (h0 : s.isShutdown = false) (_h1 : s.shutdownResolver = false)
    (h2 : s.shutdownResolved = false) (h3 : s.timerActive = true)
    (hb : 1 ≤ s.batchSize) (hqN : s.queue.length = N) (hN : 1 ≤ N) :
    (∀ k, k < ceilDiv N s.batchSize →
        (ticksN k (shutdown s).1).timerActive = true
        ∧ (ticksN k (shutdown s).1).shutdownResolved = false
        ∧ (ticksN k (shutdown s).1).queue ≠ [])
    ∧ (ticksN (ceilDiv N s.batchSize) (shutdown s).1).queue = []
    ∧ (ticksN (ceilDiv N s.batchSize) (shutdown s).1).timerActive = false
    ∧ (ticksN (ceilDiv N s.batchSize) (shutdown s).1).shutdownResolved = true
    ∧ ∀ m, ceilDiv N s.batchSize ≤ m →
        ticksN m (shutdown s).1 = ticksN (ceilDiv N s.batchSize) (shutdown s).1 := by
  have hs1 : (shutdown s).1 = { s with isShutdown := true, shutdownResolver := true } := by
    simp [shutdown, h0]
  exact drain_loop s.batchSize hb N (shutdown s).1
    (by rw [hs1]) (by rw [hs1]) (by rw [hs1]) (by rw [hs1]; exact h2)
    (by rw [hs1]; exact h3) (by rw [hs1]; exact hqN) hN

/-- Witness for C1: `batchSize = 2`, three queued jobs, so
`ceil(3/2) = 2` ticks empty the queue and stop the timer. -/
theorem shutdown_drains_in_ceil_ticks_witness :
    (ticksN (ceilDiv 3 2)
      (shutdown (⟨2, 0, false, false, false, true, [10, 20, 30]⟩ : BatchState Nat)).1).queue = []
    ∧ (ticksN (ceilDiv 3 2)
      (shutdown (⟨2, 0, false, false, false, true, [10, 20, 30]⟩ : BatchState Nat)).1).timerActive = false := by
  have h := shutdown_drains_in_ceil_ticks
    (⟨2, 0, false, false, false, true, [10, 20, 30]⟩ : BatchState Nat) 3
    rfl rfl rfl rfl (by decide) rfl (by decide)
  exact ⟨h.2.1, h.2.2.1⟩

/-- C1 counterexample: calling `Shutdown()` on an empty queue never
fulfils the signal — every subsequent tick takes the idle branch,
which skips the shutdown check, so even after 5 ticks the signal is
unfulfilled and the timer still runs (the claim says the next tick
fulfils it). -/
theorem shutdown_on_empty_queue_never_signals :
    (ticksN 5 (shutdown (⟨1, 0, false, false, false, true, ([] : List Nat)⟩ : BatchState Nat)).1).shutdownResolved = false
    ∧ (ticksN 5 (shutdown (⟨1, 0, false, false, false, true, ([] : List Nat)⟩ : BatchState Nat)).1).timerActive = true := by
  decide

/-- C2 (code bug): with `frequency = 1000` and a first batch whose
execution takes 2500 time units, `setInterval` fires the second tick
at t = 2000 while the first tick (outstanding until t = 3500) has not
finished — the interval callback does not await the async
`processBatch`, so ticks of the same batcher do overlap. -/
theorem setInterval_fires_during_outstanding_tick :
    ticksOverlap 1000 (fun k => if k = 0 then 2500 else 0) :=
  ⟨0, by decide⟩

/-- C3 (amended): the first `Shutdown()` call marks the batcher shut
down; a second call while already shutting down has no additional
effect — state unchanged, nothing restarted, no duplicate log
notices — but it returns `undefined` (no signal), not the same
completion signal as the first call. -/
theorem shutdown_second_call_state_noop {J : Type} (s : BatchState J) :
    ((shutdown s).1).isShutdown = true
    ∧ (s.isShutdown = true → shutdown s = (s, none, [])) := by
  constructor
  · unfold shutdown
    split <;> simp_all
  · intro h
    simp [shutdown, h]

/-- Witness for C3: second call on an already-shut-down batcher is a
no-op returning no signal and no log. -/
theorem shutdown_second_call_state_noop_witness :
    shutdown (⟨1, 0, true, true, false, true, ([] : List Nat)⟩ : BatchState Nat)
      = (⟨1, 0, true, true, false, true, []⟩, none, []) :=
  (shutdown_second_call_state_noop _).2 rfl

/-- C3 counterexample: the second `shutdown()` call returns
`undefined` (`none`), not the same completion signal the first call
returned (`some ()`), refuting "returns the same completion signal". -/
theorem shutdown_second_call_returns_no_signal :
    (shutdown ((shutdown (⟨1, 0, false, false, false, true, ([10] : List Nat)⟩ : BatchState Nat)).1)).2.1 = none
    ∧ (shutdown (⟨1, 0, false, false, false, true, ([10] : List Nat)⟩ : BatchState Nat)).2.1 = some ()
    ∧ (none : Option Unit) ≠ some () :=
  ⟨rfl, rfl, by decide⟩

/-- C5: every drain tick removes exactly `min(batchSize, queue.length)`
jobs from the head of the queue (the batch is the `take`, the
remainder the `drop`, and together they recompose the queue, so order
is preserved), and over any number of ticks the jobs handed to the
batch processor, in order, are a prefix of the submitted queue:
execution order equals submission order. -/
theorem processBatch_drains_min_fifo {J : Type} (s : BatchState J) :
    (processBatch s).2 = s.queue.take s.batchSize
    ∧ (processBatch s).1.queue = s.queue.drop s.batchSize
    ∧ ((processBatch s).2).length = min s.batchSize s.queue.length
    ∧ (processBatch s).2 ++ (processBatch s).1.queue = s.queue
    ∧ ∀ n, ticksTrace n s ++ (ticksN n s).queue = s.queue := by
  obtain ⟨h1, h2⟩ := processBatch_take_drop s
  refine ⟨h1, h2, ?_, ?_, fun n => ticksTrace_append n s⟩
  · rw [h1, List.length_take]
  · rw [h1, h2]
    exact List.take_append_drop _ _

/-- C7: jobs in a batch are processed in isolation — the result of
each drained job is a function of that job's own callback alone, and
concretely a batch holding one failing and one succeeding job ends
with the succeeding job `Complete` and the failing job `Failed` in
either iteration order. -/
theorem batch_jobs_isolated (α : Type) (e : JsThrown) (v : α) :
    (∀ (queue : List (Except JsThrown α)) (size i : Nat),
        ((processBatchJobs queue size).1)[i]? = ((queue.take size)[i]?).map newJobProcessor)
    ∧ ((processBatchJobs [Except.error e, Except.ok v] 2).1.map JobResultRec.status
        = [JobStatus.Failed, JobStatus.Complete])
    ∧ ((processBatchJobs [Except.ok v, Except.error e] 2).1.map JobResultRec.status
        = [JobStatus.Complete, JobStatus.Failed]) := by
  refine ⟨?_, ?_, ?_⟩
  · intro queue size i
    simp [processBatchJobs, ← List.map_take, List.getElem?_map]
  · cases e <;> simp [processBatchJobs, newJobProcessor]
  · cases e <;> simp [processBatchJobs, newJobProcessor]

/-- C9: a job's status lifecycle is exactly
`Pending → InProgress → {Complete | Failed}`: the write trace is a
chain of allowed transitions, its last entry is the terminal status
(`Complete` exactly when the callback succeeded, with the thrown
`Error` captured on failure), and every earlier entry is
non-terminal, so terminal states are never revisited. -/
theorem job_status_monotonic (α : Type) (cb : Except JsThrown α) (m : String) :
    List.Chain' (fun a b => statusStep a b = true) (jobLifecycleTrace cb)
    ∧ (jobLifecycleTrace cb).getLast? = some (newJobProcessor cb).status
    ∧ isTerminal (newJobProcessor cb).status = true
    ∧ (jobLifecycleTrace cb).dropLast = [JobStatus.Pending, JobStatus.InProgress]
    ∧ isTerminal JobStatus.Pending = false
    ∧ isTerminal JobStatus.InProgress = false
    ∧ (@newJobProcessor α (Except.error (JsThrown.jsError m))).error = some m
    ∧ ((newJobProcessor cb).status = JobStatus.Complete ↔ ∃ w, cb = Except.ok w) := by
  cases cb with
  | ok v =>
      simp [jobLifecycleTrace, jobStatusWrites, newJobProcessor, statusStep, isTerminal]
  | error t =>
      cases t <;>
        simp [jobLifecycleTrace, jobStatusWrites, newJobProcessor, statusStep, isTerminal]

/-- C10: the `batchJob` wrapper enqueued by `addJob` never rejects:
whatever the caller's job does, the wrapper's own promise fulfills
(with `1`), the job's outcome is routed into the `JobResult` promise
`addJob` returned (resolved on success, rejected with the failure),
and therefore `Promise.allSettled` in the batch processor observes
only fulfilled promises. -/
theorem batchJob_wrapper_never_rejects (ε α : Type) (v : α) (e : ε) :
    (∀ job : Except ε α, (batchJobRun job).1 = Settled.fulfilled 1)
    ∧ (batchJobRun (Except.ok v : Except ε α)).2 = Settled.fulfilled v
    ∧ (batchJobRun (Except.error e : Except ε α)).2 = Settled.rejected e
    ∧ (∀ batch : List (Except ε α),
        newBatchProcessor batch = batch.map fun _ => Settled.fulfilled 1) := by
  refine ⟨?_, rfl, rfl, ?_⟩
  · intro job
    cases job <;> rfl
  · intro batch
    induction batch with
    | nil => rfl
    | cons j rest ih =>
        cases j <;> simp [newBatchProcessor, batchJobRun] at ih ⊢ <;> exact ih

/-- C8: once shutdown has been requested, every submission fails with
`ShuttingDown` regardless of remaining capacity, and the state —
queue included — is unchanged. -/
theorem addJob_rejects_when_shutting_down {J : Type} (s : BatchState J) (j : J)
    (h : s.isShutdown = true) :
    addJob s j = (s, some BatcherErrors.ShuttingDown) := by
  simp [addJob, h]

/-- Witness for C8: a shut-down batcher with spare capacity
(queue 1 of 4) still rejects with `ShuttingDown` and keeps its queue. -/
theorem addJob_rejects_when_shutting_down_witness :
    addJob (⟨2, 2, true, true, false, true, [7]⟩ : BatchState Nat) 8
      = (⟨2, 2, true, true, false, true, [7]⟩, some BatcherErrors.ShuttingDown) :=
  addJob_rejects_when_shutting_down _ 8 rfl

/-- Submitting a list of jobs one after another through `addJob`,
collecting each submission's outcome in order. -/
def addJobs {J : Type} : BatchState J → List J → BatchState J × List (Option BatcherErrors)
  | s, [] => (s, [])
  | s, j :: rest =>
      let p := addJob s j
      let q := addJobs p.1 rest
      (q.1, p.2 :: q.2)

theorem addJobs_all_accepted {J : Type} :
    ∀ (js : List J) (s : BatchState J), s.isShutdown = false →
      s.queue.length + js.length ≤ s.maxBatches * s.batchSize →
      addJobs s js = ({ s with queue := s.queue ++ js }, js.map fun _ => none) := by
  intro js
  induction js with
  | nil => intro s _ _; simp [addJobs]
  | cons j rest ih =>
      intro s hsd hcap
      have hlt : s.queue.length < s.maxBatches * s.batchSize := by
        simp [List.length_cons] at hcap
        omega
      have hadd : addJob s j = ({ s with queue := s.queue ++ [j] }, none) := by
        simp [addJob, hsd, Or.inr hlt]
      have hrest := ih { s with queue := s.queue ++ [j] } hsd
        (by simp only [List.length_cons] at hcap
            simp [List.length_append]
            omega)
      simp only [addJobs, hadd, hrest]
      simp [List.append_assoc]

theorem tickStep_preserves {J : Type} (s : BatchState J) :
    (tickStep s).batchSize = s.batchSize
    ∧ (tickStep s).maxBatches = s.maxBatches
    ∧ (tickStep s).isShutdown = s.isShutdown := by
  unfold tickStep
  split
  · exact ⟨(processBatch_preserves s).1, (processBatch_preserves s).2.1,
      (processBatch_preserves s).2.2.1⟩
  · exact ⟨rfl, rfl, rfl⟩

/-- C4: for an active batcher with `maxBatches = m ≥ 1` and
`batchSize = b`, a submission is rejected with `QueueFull` — leaving
the state unchanged — exactly when the queue already holds at least
`m*b` jobs; below capacity the job is appended; starting from an
empty queue, `m*b` submissions all succeed and the next one is
rejected with `QueueFull`; and after a drain tick leaves the queue
below `m*b`, a submission succeeds again. -/
theorem addJob_queueFull_iff_capacity {J : Type} (s : BatchState J) (j : J)
    (hsd : s.isShutdown = false) (hm : 1 ≤ s.maxBatches) :
    ((addJob s j).2 = some BatcherErrors.QueueFull
        ↔ s.maxBatches * s.batchSize ≤ s.queue.length)
    ∧ ((addJob s j).2 = some BatcherErrors.QueueFull → (addJob s j).1 = s)
    ∧ (s.queue.length < s.maxBatches * s.batchSize →
        (addJob s j).2 = none ∧ (addJob s j).1 = { s with queue := s.queue ++ [j] })
    ∧ (∀ js : List J, s.queue = [] → js.length = s.maxBatches * s.batchSize →
        (addJobs s js).2 = js.map (fun _ => none)
        ∧ (addJob (addJobs s js).1 j).2 = some BatcherErrors.QueueFull)
    ∧ ((tickStep s).queue.length < s.maxBatches * s.batchSize →
        (addJob (tickStep s) j).2 = none
        ∧ (addJob (tickStep s) j).1.queue = (tickStep s).queue ++ [j]) := by
  have hmlt : ¬ s.maxBatches < 1 := by omega
  have haccept : ∀ s' : BatchState J, s'.isShutdown = false →
      s'.queue.length < s'.maxBatches * s'.batchSize →
      addJob s' j = ({ s' with queue := s'.queue ++ [j] }, none) := by
    intro s' h1 h2
    simp [addJob, h1, Or.inr h2]
  have hfull : s.maxBatches * s.batchSize ≤ s.queue.length →
      addJob s j = (s, some BatcherErrors.QueueFull) := by
    intro h
    have hnlt : ¬ s.queue.length < s.maxBatches * s.batchSize := by omega
    simp [addJob, hsd, hmlt, hnlt]
  refine ⟨?_, ?_, ?_, ?_, ?_⟩
  · constructor
    · intro h
      by_contra hc
      push_neg at hc
      rw [haccept s hsd hc] at h
      simp at h
    · intro h
      rw [hfull h]
  · intro h
    by_cases hlt : s.queue.length < s.maxBatches * s.batchSize
    · rw [haccept s hsd hlt] at h
      simp at h
    · rw [hfull (by omega)]
  · intro hlt
    rw [haccept s hsd hlt]
    exact ⟨rfl, rfl⟩
  · intro js hq hlen
    have hall := addJobs_all_accepted js s hsd (by rw [hq]; simp; omega)
    rw [hall]
    refine ⟨rfl, ?_⟩
    have hnlt : ¬ s.queue.length + js.length < s.maxBatches * s.batchSize := by
      rw [hq]
      simp
      omega
    simp [addJob, hsd, hmlt, hnlt]
  · intro hlt
    obtain ⟨p1, p2, p3⟩ := tickStep_preserves s
    have hsd2 : (tickStep s).isShutdown = false := by rw [p3]; exact hsd
    have hlt2 : (tickStep s).queue.length
        < (tickStep s).maxBatches * (tickStep s).batchSize := by
      rw [p1, p2]
      exact hlt
    rw [haccept (tickStep s) hsd2 hlt2]
    exact ⟨rfl, rfl⟩

/-- Witness for C4: `batchSize = 2`, `maxBatches = 2` (capacity 4):
four submissions into an empty queue all succeed, the fifth is
rejected with `QueueFull`. -/
theorem addJob_queueFull_iff_capacity_witness :
    (addJobs (⟨2, 2, false, false, false, true, []⟩ : BatchState Nat) [1, 2, 3, 4]).2
        = [none, none, none, none]
    ∧ (addJob (addJobs (⟨2, 2, false, false, false, true, []⟩ : BatchState Nat) [1, 2, 3, 4]).1 5).2
        = some BatcherErrors.QueueFull := by
  have h := (addJob_queueFull_iff_capacity
    (⟨2, 2, false, false, false, true, []⟩ : BatchState Nat) 5
    rfl (by decide)).2.2.2.1 [1, 2, 3, 4] rfl (by decide)
  exact ⟨h.1, h.2⟩

theorem clamp_floor_eq (mb : ℚ) :
    (if mb < 1 then (0 : ℤ) else ⌊mb⌋) = ⌊max 0 mb⌋ := by
  rcases lt_or_le mb 1 with h | h
  · rcases le_or_lt mb 0 with h0 | h0
    · rw [if_pos h, max_eq_left h0, Int.floor_zero]
    · rw [if_pos h, max_eq_right h0.le]
      symm
      rw [Int.floor_eq_zero_iff]
      exact Set.mem_Ico.mpr ⟨h0.le, h⟩
  · rw [if_neg (not_lt.mpr h), max_eq_right (by linarith)]

/-- C6: construction fails (synchronously, so no timer ever starts)
exactly when `frequency < 1` or `batchSize < 1` — including
non-integer values below 1, since the parameters are arbitrary
rationals — and every accepted configuration stores
`maxBatches = ⌊max(0, maxBatches)⌋` (fractional values floored,
negatives clamped to 0) and starts with the timer running and
`isShutdown = false`. -/
theorem newBatcher_validation_and_floor (bs f mb : ℚ) :
    ((∃ msg, newBatcher bs f mb = Except.error msg) ↔ (f < 1 ∨ bs < 1))
    ∧ (∀ b : BatcherInit, newBatcher bs f mb = Except.ok b →
        b.maxBatches = ⌊max 0 mb⌋ ∧ b.isShutdown = false
        ∧ b.timerStarted = true ∧ b.batchSize = bs) := by
  constructor
  · constructor
    · rintro ⟨msg, hmsg⟩
      by_contra hc
      push_neg at hc
      simp [newBatcher, not_lt.mpr hc.1, not_lt.mpr hc.2] at hmsg
    · intro h
      by_cases hf : f < 1
      · exact ⟨"frequency cannot be less than 1ms", by simp [newBatcher, hf]⟩
      · have hb : bs < 1 := h.resolve_left hf
        exact ⟨"batch size cannot be less than 1", by simp [newBatcher, hf, hb]⟩
  · intro b hb
    by_cases hf : f < 1
    · simp [newBatcher, hf] at hb
    · by_cases hbs : bs < 1
      · simp [newBatcher, hf, hbs] at hb
      · simp [newBatcher, hf, hbs] at hb
        subst hb
        exact ⟨clamp_floor_eq mb, rfl, rfl, rfl⟩

/-- Witness for C6: `batchSize = 100`, `frequency = 1000`,
`maxBatches = 3.5` — construction succeeds and stores
`maxBatches = 3 = ⌊max(0, 3.5)⌋`. -/
theorem newBatcher_validation_and_floor_witness :
    (⟨100, 3, false, true⟩ : BatcherInit).maxBatches = ⌊max 0 (7 / 2 : ℚ)⌋ :=
  ((newBatcher_validation_and_floor 100 1000 (7 / 2)).2
    ⟨100, 3, false, true⟩ (by
      have h1 : ¬ (1000 : ℚ) < 1 := by decide
      have h2 : ¬ (100 : ℚ) < 1 := by decide
      have h3 : ¬ (7 / 2 : ℚ) < 1 := by norm_num
      have h4 : ⌊(7 / 2 : ℚ)⌋ = 3 := by
        rw [Int.floor_eq_iff]
        norm_num
      simp [newBatcher, h1, h2, h3, h4])).1
